import Mathlib

/-!
Verification development for the dev-deck realtime/execution backend.

Shallow embedding of:
* the in-memory presence registry of `backend/src/index.js`
  (`collaboratorsByProject`, `handleJoinProject`, `handleLeaveProject`,
  the `disconnect` handler, and the `chatMessage` handler);
* the `ExecutionQueue` and rate limiter of
  `backend/src/services/executionService.js`;
* the `/execute` route of `backend/src/routes/api.js`
  (install step, timed first run, single EADDRINUSE retry, cleanup);
* the SSE fan-out loop `broadcastToProject` and the chat-history query;
* the SSE `sendCollaboratorUpdate` diffing rule of
  `backend/src/routes/sseRoutes.js`.
-/

namespace DevDeck

/-! ## Presence registry (backend/src/index.js) -/

/-- One element of a project's collaborator list, as built in
`handleJoinProject` (`userData`): identity fields plus the socket id of
the connection that produced the entry. -/
structure Collab where
  userId : String
  username : String
  email : String
  socketId : String
  joinedAt : Nat
  status : String
  color : Nat
deriving DecidableEq, Repr

/-- The module-level `collaboratorsByProject` map, as an association list
from project id to collaborator list. -/
def RoomMap := List (String × List Collab)

instance : DecidableEq RoomMap := by
  unfold RoomMap
  infer_instance

/-- `getOrCreateProjectCollaborators`: look the project up, defaulting to
the empty list. -/
def roomOf (st : RoomMap) (pid : String) : List Collab :=
  match st.find? (fun e => e.1 = pid) with
  | some e => e.2
  | none => []

/-- `collaboratorsByProject.set(projectId, list)`. -/
def setRoom (st : RoomMap) (pid : String) (l : List Collab) : RoomMap :=
  match st with
  | [] => [(pid, l)]
  | e :: rest =>
      if e.1 = pid then (pid, l) :: rest else e :: setRoom rest pid l

/-- Replace the first entry whose `userId` matches `d.userId` by `d`
(the JS `findIndex` + index assignment; the spread
`\x7b...old, ...userData\x7d` overwrites every field, leaving exactly `d`).
Returns `none` when no entry matches (JS `existingUserIndex < 0`). -/
def updateFirst (d : Collab) : List Collab → Option (List Collab)
  | [] => none
  | c :: cs =>
      if c.userId = d.userId then some (d :: cs)
      else (updateFirst d cs).map (fun l => c :: l)

/-- A broadcast emitted to a room by the socket handlers. -/
inductive Emit where
  | collaboratorJoined (pid : String) (userId : String)
  | collaboratorUpdate (pid : String) (snapshot : List Collab)
  | collaboratorLeft (pid : String) (userId : String)
deriving DecidableEq, Repr

/-- Body of `handleJoinProject` after the authorization checks: upsert the
caller's entry keyed by `userId`, emit `collaborator-joined` only for a
new entry, and always emit one `collaborator-update` with the new list. -/
def joinRoom (st : RoomMap) (pid : String) (d : Collab) :
    RoomMap × List Emit :=
  let collabs := roomOf st pid
  match updateFirst d collabs with
  | some updated =>
      (setRoom st pid updated, [Emit.collaboratorUpdate pid updated])
  | none =>
      let updated := collabs ++ [d]
      (setRoom st pid updated,
        [Emit.collaboratorJoined pid d.userId,
         Emit.collaboratorUpdate pid updated])

/-- Body of `handleLeaveProject`: if the user has an entry and it is the
user's only connection entry, drop every entry of that `userId` and emit
`collaborator-left` plus one `collaborator-update`; with more than one
entry for the user only the caller's socket entry is dropped, silently;
an absent user leaves the map untouched and emits nothing. -/
def leaveRoom (st : RoomMap) (pid : String) (userId socketId : String) :
    RoomMap × List Emit :=
  let collabs := roomOf st pid
  if (collabs.findIdx? (fun u => u.userId = userId)).isSome then
    let userConnections := collabs.filter (fun u => u.userId = userId)
    if userConnections.length ≤ 1 then
      let updatedList := collabs.filter (fun u => ¬ u.userId = userId)
      (setRoom st pid updatedList,
        [Emit.collaboratorLeft pid userId,
         Emit.collaboratorUpdate pid updatedList])
    else
      let updatedList := collabs.filter (fun u => ¬ u.socketId = socketId)
      (setRoom st pid updatedList, [])
  else
    (st, [])

/-- The socket `disconnect` handler: for every project, drop the entries
of the disconnected socket; rooms that actually changed broadcast one
`collaborator-update`. -/
def disconnectAll (st : RoomMap) (socketId : String) : RoomMap × List Emit :=
  match st with
  | [] => ([], [])
  | (pid, users) :: rest =>
      let updatedUsers := users.filter (fun u => ¬ u.socketId = socketId)
      let tail := disconnectAll rest socketId
      if updatedUsers.length ≠ users.length then
        ((pid, updatedUsers) :: tail.1,
          Emit.collaboratorUpdate pid updatedUsers :: tail.2)
      else
        ((pid, users) :: tail.1, tail.2)

/-- A presence event: a successful (authorized) join, an explicit leave,
or a physical disconnect. -/
inductive PEv where
  | join (pid : String) (d : Collab)
  | leave (pid : String) (userId socketId : String)
  | disc (socketId : String)
deriving DecidableEq, Repr

/-- Apply one presence event to the map. -/
def pstep (st : RoomMap) (e : PEv) : RoomMap :=
  match e with
  | PEv.join pid d => (joinRoom st pid d).1
  | PEv.leave pid u s => (leaveRoom st pid u s).1
  | PEv.disc s => (disconnectAll st s).1

/-- Emits of one presence event. -/
def pemits (st : RoomMap) (e : PEv) : List Emit :=
  match e with
  | PEv.join pid d => (joinRoom st pid d).2
  | PEv.leave pid u s => (leaveRoom st pid u s).2
  | PEv.disc s => (disconnectAll st s).2

/-- Run a trace of presence events from the empty map. -/
def prun (tr : List PEv) : RoomMap :=
  tr.foldl pstep ([] : RoomMap)

/-- Modelled from the spec (claim C1's reading, used only to compare with
the source's behaviour): the connections that joined a room and have not
since left or disconnected — join adds the connection id (if absent),
leave and disconnect remove it. -/
def liveConnections (tr : List PEv) (pid : String) : List String :=
  tr.foldl
    (fun acc e =>
      match e with
      | PEv.join p d =>
          if p = pid ∧ ¬ acc.contains d.socketId then acc ++ [d.socketId]
          else acc
      | PEv.leave p _ s =>
          if p = pid then acc.filter (fun c => ¬ c = s) else acc
      | PEv.disc s => acc.filter (fun c => ¬ c = s))
    []

/-! ## Execution queue and rate limiter
(backend/src/services/executionService.js) -/

/-- `const MAX_CONCURRENT = 3`. -/
def MAX_CONCURRENT : Nat := 3

/-- State of `ExecutionQueue`: the pending `queue` array (job ids in push
order) and the `running` counter. `admitted` is an append-only
observation log of the jobs that have started, in admission order (the
JS object keeps no such log; it is recorded here to state the FIFO
property). -/
structure QState where
  queue : List Nat
  running : Nat
  admitted : List Nat
deriving DecidableEq, Repr

/-- `next()`: `if (queue.length === 0 || running >= MAX_CONCURRENT)
return;` else shift the head job and start it (its first action
increments `running` synchronously). -/
def qnext (s : QState) : QState :=
  if s.queue.length = 0 ∨ s.running ≥ MAX_CONCURRENT then s
  else { queue := s.queue.tail, running := s.running + 1,
         admitted := s.admitted ++ s.queue.take 1 }

/-- `add(job)`: push the wrapped job, then `next()`. -/
def qadd (s : QState) (j : Nat) : QState :=
  qnext { s with queue := s.queue ++ [j] }

/-- A running job's `finally` block: decrement `running`, then `next()`.
A finish with nothing running cannot occur in the source (only a started
job reaches the `finally`); it is a no-op here. -/
def qfinish (s : QState) : QState :=
  if s.running = 0 then s
  else qnext { s with running := s.running - 1 }

/-- Events observable at the queue boundary. -/
inductive QEv where
  | add (j : Nat)
  | finish
deriving DecidableEq, Repr

def qstep (s : QState) : QEv → QState
  | QEv.add j => qadd s j
  | QEv.finish => qfinish s

def qrun (tr : List QEv) : QState :=
  tr.foldl qstep ⟨[], 0, []⟩

/-- The jobs submitted by a trace, in submission order. -/
def submittedJobs (tr : List QEv) : List Nat :=
  tr.filterMap (fun e => match e with | QEv.add j => some j | QEv.finish => none)

/-- The rate limiter (`RateLimiterMemory`, 20 points per 60 s window)
plus the queue, as used by `executeCode`: `consume('global', 1)` succeeds
iff one more point fits in the window, and only then is the job handed to
`executionQueue.add`. `limiterCount` is the points consumed in the
current window. -/
structure SvcState where
  limiterCount : Nat
  q : QState
deriving DecidableEq, Repr

/-- Outcome of a call to `executeCode` at the submission boundary. -/
inductive SubmitOutcome where
  | queuedOk
  | rateLimited (message : String)
deriving DecidableEq, Repr

/-- `executeCode`'s submission prologue: apply the rate limiter before
anything else; on rejection rethrow `Rate limit exceeded. Please try
again later.` without touching the queue (the queued closure — which is
what creates the workspace directory — is never built or run). -/
def submitSvc (s : SvcState) (j : Nat) : SvcState × SubmitOutcome :=
  if s.limiterCount + 1 ≤ 20 then
    ({ limiterCount := s.limiterCount + 1, q := qadd s.q j },
      SubmitOutcome.queuedOk)
  else
    (s, SubmitOutcome.rateLimited "Rate limit exceeded. Please try again later.")

/-! ## The `/execute` route (backend/src/routes/api.js) -/

/-- Character-list test: `n` occurs at the start of `h`. -/
def startsHere : List Char → List Char → Bool
  | [], _ => true
  | _ :: _, [] => false
  | a :: ns, b :: hs => a = b && startsHere ns hs

/-- Character-list substring test. -/
def hasSub (n : List Char) : List Char → Bool
  | [] => startsHere n []
  | c :: cs => startsHere n (c :: cs) || hasSub n cs

/-- `/EADDRINUSE/i.test(stderr)`: case-insensitive substring search. -/
def stderrHasAddrInUse (s : String) : Bool :=
  hasSub "EADDRINUSE".toList (s.toList.map Char.toUpper)

/-- Result of `await execPromise('npm install')`. -/
inductive InstallResult where
  | ok
  | err (message : String) (stderrTxt : String)
deriving DecidableEq, Repr

/-- How the first `exec('node index.js', ...)` run ends: the `exit`
event fires before the 60 s timer, the timer fires first (child still
running), or the `error` event fires (spawn failure, promise rejected). -/
inductive RunOutcome where
  | exited
  | runsPastTimeout
  | spawnError (message : String)
deriving DecidableEq, Repr

/-- Observed behaviour of the first run: accumulated stdout/stderr data
and how it ended. -/
structure Attempt where
  stdoutTxt : String
  stderrTxt : String
  outcome : RunOutcome
deriving DecidableEq, Repr

/-- Behaviour of the retry run. The retry installs no timer and no
`error` handler: its promise resolves only on `exit`, so a retry child
that never exits hangs the request (covered by `neverExits`). -/
inductive RetryOutcome where
  | exits (stdoutTxt stderrTxt : String)
  | neverExits
deriving DecidableEq, Repr

/-- The environment the route runs one request in. -/
structure ExecBehavior where
  install : InstallResult
  att1 : Attempt
  retry : RetryOutcome
deriving DecidableEq, Repr

/-- The JSON body the route answers with (`''` for absent fields; the
success body has `success`, `output`, `stderr`, `timedOut`; the catch
body has `success:false`, `message`, `stderr`). -/
structure RouteResult where
  status : Nat
  success : Bool
  output : String
  stderrField : String
  message : String
  timedOut : Bool
deriving DecidableEq, Repr

/-- Everything observable about one request: the env `PORT` value of each
`exec('node index.js')` spawn in order, whether the first child was
SIGKILLed by the timer, whether the temp workspace was removed, the final
persisted `project.runPort`, and the HTTP response (`none` when the
request never completes). -/
structure RouteTrace where
  spawnPorts : List Nat
  killedFirst : Bool
  workspaceDestroyed : Bool
  finalRunPort : Option Nat
  response : Option RouteResult
deriving DecidableEq, Repr

/-- The `/execute` handler after body validation and temp-dir creation.
`parsePort` stands for the stdout regex
`/http:\/\/127\.0\.0\.1:(\d+)/ || /port\s+(\d+)/i`; `projectIdGiven`
is whether the request carried a `projectId`; `runPort0` the project's
stored `runPort` (`none` when unset). -/
def executeRoute (parsePort : String → Option Nat) (projectIdGiven : Bool)
    (runPort0 : Option Nat) (b : ExecBehavior) : RouteTrace :=
  match b.install with
  | InstallResult.err m se =>
      { spawnPorts := [], killedFirst := false, workspaceDestroyed := true,
        finalRunPort := runPort0,
        response := some { status := 400, success := false, output := "",
                           stderrField := if se = "" then m else se,
                           message := m, timedOut := false } }
  | InstallResult.ok =>
    let desiredPort : Nat :=
      if projectIdGiven then
        match runPort0 with
        | some p => p
        | none => 0
      else 0
    match b.att1.outcome with
    | RunOutcome.spawnError m =>
        { spawnPorts := [desiredPort], killedFirst := false,
          workspaceDestroyed := true, finalRunPort := runPort0,
          response := some { status := 400, success := false, output := "",
                             stderrField := m, message := m,
                             timedOut := false } }
    | outcome =>
      let timedOut := outcome == RunOutcome.runsPastTimeout
      let runPort1 : Option Nat :=
        if projectIdGiven ∧ desiredPort = 0 then
          match parsePort b.att1.stdoutTxt with
          | some p => some p
          | none => runPort0
        else runPort0
      if stderrHasAddrInUse b.att1.stderrTxt then
        match b.retry with
        | RetryOutcome.neverExits =>
            { spawnPorts := [desiredPort, 0], killedFirst := timedOut,
              workspaceDestroyed := false, finalRunPort := runPort1,
              response := none }
        | RetryOutcome.exits rso rse =>
            let runPort2 : Option Nat :=
              if projectIdGiven then
                match parsePort rso with
                | some p => some p
                | none => runPort1
              else runPort1
            let stdoutAll := b.att1.stdoutTxt ++ rso
            let stderrAll := b.att1.stderrTxt ++ rse
            { spawnPorts := [desiredPort, 0], killedFirst := timedOut,
              workspaceDestroyed := true, finalRunPort := runPort2,
              response := some { status := 200, success := true,
                                 output := if stdoutAll = "" then stderrAll
                                           else stdoutAll,
                                 stderrField := stderrAll, message := "",
                                 timedOut := timedOut } }
      else
        { spawnPorts := [desiredPort], killedFirst := timedOut,
          workspaceDestroyed := true, finalRunPort := runPort1,
          response := some { status := 200, success := true,
                             output := if b.att1.stdoutTxt = "" then
                                         b.att1.stderrTxt
                                       else b.att1.stdoutTxt,
                             stderrField := b.att1.stderrTxt, message := "",
                             timedOut := timedOut } }

/-! ## SSE fan-out (`broadcastToProject`, src/unnamed/part_013) -/

/-- One SSE connection in `activeConnections`: whether its response
stream is already ended (`res.writableEnded`) and whether `res.write`
throws on it. -/
structure SSEConn where
  id : Nat
  writableEnded : Bool
  writeFails : Bool
deriving DecidableEq, Repr

/-- The `for (const \x7b res \x7d of connections)` loop: each connection is
written to inside its own try/catch; a throw is logged and the loop
continues. Returns the ids the event was actually written to, in loop
order. -/
def sseFanout : List SSEConn → List Nat
  | [] => []
  | c :: cs =>
      if ¬ c.writableEnded ∧ ¬ c.writeFails then c.id :: sseFanout cs
      else sseFanout cs

/-! ## Chat history query (`router.get('/chat/:projectId')`,
src/unnamed/part_013) -/

/-- A stored chat message under the query's projection
(`text`, `sender`, `createdAt`, `_id`). -/
structure ChatMsg where
  mid : Nat
  text : String
  createdAt : Nat
deriving DecidableEq, Repr

/-- `Message.find(\x7b project \x7d).sort(\x7b createdAt: 1 \x7d).limit(100)`:
ascending creation-time order, first 100 records. -/
def chatList (msgs : List ChatMsg) : List ChatMsg :=
  (List.insertionSort (fun a b => a.createdAt ≤ b.createdAt) msgs).take 100

/-! ## Realtime chat handler (`socket.on('chatMessage')`,
backend/src/index.js) -/

/-- `id.startsWith('temp-')`, as a character-level test on the string's
characters. -/
def startsWithTemp (s : String) : Bool :=
  startsHere "temp-".toList s.toList

/-- The inbound payload fields the handler branches on. `mid` is
`data._id`; `senderId` is `data.sender?._id` (`none` when `sender` or
`sender._id` is missing). -/
structure ChatData where
  mid : Option String
  projectId : String
  text : String
  senderId : Option String
deriving DecidableEq, Repr

/-- A record of the persistent `Message` collection. -/
structure StoredMsg where
  mid : String
  projectId : String
  text : String
  senderId : String
deriving DecidableEq, Repr

/-- The acknowledgment sent back to the submitting client. -/
inductive ChatAck where
  | okAck (messageId : String)
  | errAck (message : String)
deriving DecidableEq, Repr

/-- Result of one `chatMessage` event: the new store contents, the
`chatMessage` broadcasts emitted to the room (each carrying the id the
clients see), and the ack. -/
structure ChatEffects where
  store : List StoredMsg
  broadcasts : List StoredMsg
  ack : ChatAck
deriving DecidableEq, Repr

/-- The `chatMessage` handler. `freshId` is the ObjectId Mongoose mints
for a newly constructed `Message`; `saveOk` whether `message.save()`
succeeds; `socketUserId` is `socket.user?.userId`. A payload whose
`_id` starts with `temp-` is broadcast but never saved; any other
payload is saved first and broadcast only if the save succeeded. -/
def chatHandler (store : List StoredMsg) (freshId : String) (saveOk : Bool)
    (socketUserId : Option String) (d : ChatData) : ChatEffects :=
  if d.projectId = "" ∨ d.text = "" then
    { store := store, broadcasts := [],
      ack := ChatAck.errAck "Missing required fields in chat message" }
  else if d.senderId = none then
    { store := store, broadcasts := [],
      ack := ChatAck.errAck "Missing sender information in chat message" }
  else
    let userId? := match socketUserId with
      | some u => some u
      | none => d.senderId
    match userId? with
    | none =>
        { store := store, broadcasts := [],
          ack := ChatAck.errAck "No user ID found in socket.user or message data" }
    | some uid =>
      let isTemporaryMessage :=
        match d.mid with
        | some s => startsWithTemp s
        | none => false
      if isTemporaryMessage then
        let m : StoredMsg :=
          { mid := d.mid.getD "", projectId := d.projectId,
            text := d.text, senderId := uid }
        { store := store, broadcasts := [m], ack := ChatAck.okAck m.mid }
      else
        if saveOk then
          let m : StoredMsg :=
            { mid := freshId, projectId := d.projectId,
              text := d.text, senderId := uid }
          { store := store ++ [m], broadcasts := [m],
            ack := ChatAck.okAck m.mid }
        else
          { store := store, broadcasts := [],
            ack := ChatAck.errAck "Failed to save message" }

/-- One inbound `chatMessage` event with its environment. -/
structure ChatEv where
  freshId : String
  saveOk : Bool
  socketUserId : Option String
  payload : ChatData
deriving DecidableEq, Repr

/-- Run a sequence of `chatMessage` events against the store. -/
def chatRun (evs : List ChatEv) (store : List StoredMsg) : List StoredMsg :=
  evs.foldl
    (fun st e => (chatHandler st e.freshId e.saveOk e.socketUserId e.payload).store)
    store

/-! ## SSE collaborator diffing (`sendCollaboratorUpdate`,
backend/src/routes/sseRoutes.js) -/

/-- A row of the SSE collaborator snapshot (project membership data). -/
structure SSECollab where
  userId : String
  name : String
  role : String
deriving DecidableEq, Repr

/-- `sendCollaboratorUpdate`: emit the recomputed snapshot only when its
JSON serialisation differs from the last sent one (structural equality
models `JSON.stringify` equality on these records). Returns the emitted
event, if any, and the new `lastCollaborators`. -/
def sseTick (lastCollaborators current : List SSECollab) :
    Option (List SSECollab) × List SSECollab :=
  if current = lastCollaborators then (none, lastCollaborators)
  else (some current, current)

/-! ## Theorems -/

/-- Invariant of the execution queue: never more than `MAX_CONCURRENT`
running, no idle slot while jobs queue, and admissions happen in
submission order. -/
def QInv (s : QState) (subs : List Nat) : Prop :=
  s.running ≤ MAX_CONCURRENT ∧
  (s.running < MAX_CONCURRENT → s.queue = []) ∧
  s.admitted ++ s.queue = subs

theorem qnext_mk (q : List Nat) (r : Nat) (ad : List Nat) :
    qnext ⟨q, r, ad⟩ =
      if q.length = 0 ∨ r ≥ MAX_CONCURRENT then ⟨q, r, ad⟩
      else ⟨q.tail, r + 1, ad ++ q.take 1⟩ := rfl

theorem qstep_inv (s : QState) (subs : List Nat) (e : QEv)
    (h : QInv s subs) :
    QInv (qstep s e) (subs ++ submittedJobs [e]) := by
  obtain ⟨q, r, ad⟩ := s
  obtain ⟨h1, h2, h3⟩ := h
  simp only [QInv] at h1 h2 h3 ⊢
  cases e with
  | add j =>
      show QInv (qnext ⟨q ++ [j], r, ad⟩) (subs ++ [j])
      rw [qnext_mk]
      by_cases hlt : r < MAX_CONCURRENT
      · have hq : q = [] := h2 hlt
        subst hq
        rw [if_neg (by simp; omega)]
        refine ⟨?_, ?_, ?_⟩
        · show r + 1 ≤ MAX_CONCURRENT
          omega
        · intro
          show (([] : List Nat) ++ [j]).tail = []
          rfl
        · show (ad ++ List.take 1 ([] ++ [j])) ++ ([] ++ [j]).tail = subs ++ [j]
          simp at h3
          simp [h3]
      · rw [if_pos (Or.inr (Nat.le_of_not_lt hlt))]
        refine ⟨h1, fun hlt2 => absurd hlt2 hlt, ?_⟩
        show ad ++ (q ++ [j]) = subs ++ [j]
        rw [← List.append_assoc, h3]
  | finish =>
      show QInv (qfinish ⟨q, r, ad⟩) (subs ++ [])
      rw [List.append_nil, qfinish]
      by_cases h0 : r = 0
      · rw [if_pos h0]
        exact ⟨h1, h2, h3⟩
      · rw [if_neg h0]
        show QInv (qnext ⟨q, r - 1, ad⟩) subs
        rw [qnext_mk]
        rcases hq : q with _ | ⟨a, rest⟩
        · subst hq
          rw [if_pos (Or.inl (List.length_nil (α := Nat)))]
          exact ⟨by show r - 1 ≤ MAX_CONCURRENT; omega, fun _ => rfl, h3⟩
        · subst hq
          have hrun : r = MAX_CONCURRENT := by
            rcases Nat.lt_or_ge r MAX_CONCURRENT with hl | hg
            · exact absurd (h2 hl) (by simp)
            · omega
          rw [if_neg (by simp [MAX_CONCURRENT] at hrun ⊢; omega)]
          refine ⟨?_, ?_, ?_⟩
          · show r - 1 + 1 ≤ MAX_CONCURRENT
            omega
          · show r - 1 + 1 < MAX_CONCURRENT → (a :: rest).tail = []
            intro hcon
            exfalso
            revert hcon
            show ¬ (r - 1 + 1 < MAX_CONCURRENT)
            omega
          · show (ad ++ List.take 1 (a :: rest)) ++ (a :: rest).tail = subs
            simpa using h3

theorem submittedJobs_cons (e : QEv) (tr : List QEv) :
    submittedJobs (e :: tr) = submittedJobs [e] ++ submittedJobs tr := by
  cases e <;> simp [submittedJobs]

theorem qrun_inv_aux (tr : List QEv) (s : QState) (subs : List Nat)
    (h : QInv s subs) :
    QInv (tr.foldl qstep s) (subs ++ submittedJobs tr) := by
  induction tr generalizing s subs with
  | nil => simpa [submittedJobs] using h
  | cons e tr ih =>
      have step := qstep_inv s subs e h
      have := ih (qstep s e) (subs ++ submittedJobs [e]) step
      rw [submittedJobs_cons, ← List.append_assoc]
      exact this

/-- C2: for every sequence of submissions and completions, at most
`MAX_CONCURRENT = 3` jobs are running at any instant, a free slot is
refilled synchronously (no idle slot coexists with a queued job — the
FIFO head is admitted inside the same `next()` call), and jobs are
admitted to the running set exactly in submission order. -/
theorem C2_queue_bounded_fifo (tr : List QEv) :
    (qrun tr).running ≤ MAX_CONCURRENT ∧
    ((qrun tr).running < MAX_CONCURRENT → (qrun tr).queue = []) ∧
    (qrun tr).admitted ++ (qrun tr).queue = submittedJobs tr := by
  have h0 : QInv ⟨[], 0, []⟩ [] := by
    refine ⟨by simp [MAX_CONCURRENT], fun _ => rfl, rfl⟩
  have := qrun_inv_aux tr ⟨[], 0, []⟩ [] h0
  simpa [qrun, QInv] using this

theorem C2_queue_bounded_fifo_witness :
    (qrun [QEv.add 1, QEv.add 2, QEv.add 3, QEv.add 4]).running ≤
        MAX_CONCURRENT ∧
      (qrun [QEv.add 1, QEv.finish]).queue = [] ∧
      (qrun [QEv.add 1, QEv.add 2, QEv.add 3, QEv.add 4]).admitted ++
          (qrun [QEv.add 1, QEv.add 2, QEv.add 3, QEv.add 4]).queue =
        submittedJobs [QEv.add 1, QEv.add 2, QEv.add 3, QEv.add 4] :=
  ⟨(C2_queue_bounded_fifo [QEv.add 1, QEv.add 2, QEv.add 3, QEv.add 4]).1,
    (C2_queue_bounded_fifo [QEv.add 1, QEv.finish]).2.1 (by decide),
    (C2_queue_bounded_fifo [QEv.add 1, QEv.add 2, QEv.add 3, QEv.add 4]).2.2⟩

/-- C5: a submission that hits the rate limit (the 20-point window is
exhausted) is rejected with the rate-limit error and leaves the whole
service state untouched: the queue (pending jobs), the running counter
(concurrency slots) and the admission log (the jobs that ever started
and hence ever created a workspace or job record) are all unchanged. -/
theorem C5_rate_limited_fails_fast (s : SvcState) (j : Nat)
    (h : 20 ≤ s.limiterCount) :
    submitSvc s j =
      (s, SubmitOutcome.rateLimited
            "Rate limit exceeded. Please try again later.") ∧
      (submitSvc s j).1.q.queue = s.q.queue ∧
      (submitSvc s j).1.q.running = s.q.running ∧
      (submitSvc s j).1.q.admitted = s.q.admitted := by
  have hc : ¬ (s.limiterCount + 1 ≤ 20) := by omega
  refine ⟨?_, ?_, ?_, ?_⟩ <;> simp [submitSvc, hc]

theorem C5_rate_limited_fails_fast_witness :
    20 ≤ (SvcState.mk 20 ⟨[], 0, []⟩).limiterCount ∧
      submitSvc (SvcState.mk 20 ⟨[], 0, []⟩) 7 =
        ((SvcState.mk 20 ⟨[], 0, []⟩),
          SubmitOutcome.rateLimited
            "Rate limit exceeded. Please try again later.") :=
  ⟨by decide,
    (C5_rate_limited_fails_fast (SvcState.mk 20 ⟨[], 0, []⟩) 7
        (by decide)).1⟩

/-- C7: per-connection send failures in the SSE fan-out loop are
isolated: a connection whose write throws (or whose stream is already
ended) neither prevents delivery to the connections after it in the loop
nor revokes deliveries already made before it — the delivered set with
the broken connection in the middle is exactly the deliveries to the
connections before it followed by the deliveries to those after it. -/
theorem C7_fanout_isolates_failures (xs ys : List SSEConn) (c : SSEConn)
    (h : c.writeFails = true ∨ c.writableEnded = true) :
    sseFanout (xs ++ c :: ys) = sseFanout xs ++ sseFanout ys := by
  have hc : ¬ (¬ c.writableEnded ∧ ¬ c.writeFails) := by
    rcases h with h | h <;> simp [h]
  induction xs with
  | nil =>
      simp only [List.nil_append, sseFanout, if_neg hc]
  | cons a xs ih =>
      simp only [List.cons_append, sseFanout]
      by_cases ha : ¬ a.writableEnded ∧ ¬ a.writeFails
      · rw [if_pos ha, if_pos ha, show xs.append (c :: ys) = xs ++ c :: ys from rfl, ih]
        rfl
      · rw [if_neg ha, if_neg ha, show xs.append (c :: ys) = xs ++ c :: ys from rfl, ih]

theorem C7_fanout_isolates_failures_witness :
    sseFanout [⟨1, false, false⟩, ⟨2, false, true⟩, ⟨3, false, false⟩] =
      sseFanout [⟨1, false, false⟩] ++ sseFanout [⟨3, false, false⟩] :=
  C7_fanout_isolates_failures [⟨1, false, false⟩] [⟨3, false, false⟩]
    ⟨2, false, true⟩ (Or.inl rfl)

/-- C4: when `npm install` fails, the request is answered with the
`failed` 400 body whose `stderr` is the install's captured error text
(`error.stderr || error.message`), no user-code subprocess is ever
spawned (`spawnPorts = []`), and the workspace directory is removed by
the catch block. -/
theorem C4_install_failure_no_spawn (parsePort : String → Option Nat)
    (pg : Bool) (rp : Option Nat) (b : ExecBehavior) (m se : String)
    (h : b.install = InstallResult.err m se) :
    executeRoute parsePort pg rp b =
      { spawnPorts := [], killedFirst := false, workspaceDestroyed := true,
        finalRunPort := rp,
        response := some { status := 400, success := false, output := "",
                           stderrField := if se = "" then m else se,
                           message := m, timedOut := false } } := by
  obtain ⟨inst, att1, retry⟩ := b
  cases h
  rfl

theorem C4_install_failure_no_spawn_witness :
    (ExecBehavior.mk (InstallResult.err "npm ERR" "registry down")
        ⟨"", "", RunOutcome.exited⟩ RetryOutcome.neverExits).install =
        InstallResult.err "npm ERR" "registry down" ∧
      executeRoute (fun _ => none) true (some 5)
          (ExecBehavior.mk (InstallResult.err "npm ERR" "registry down")
            ⟨"", "", RunOutcome.exited⟩ RetryOutcome.neverExits) =
        { spawnPorts := [], killedFirst := false, workspaceDestroyed := true,
          finalRunPort := some 5,
          response := some { status := 400, success := false, output := "",
                             stderrField := "registry down",
                             message := "npm ERR", timedOut := false } } :=
  ⟨rfl,
    C4_install_failure_no_spawn (fun _ => none) true (some 5)
      (ExecBehavior.mk (InstallResult.err "npm ERR" "registry down")
        ⟨"", "", RunOutcome.exited⟩ RetryOutcome.neverExits)
      "npm ERR" "registry down" rfl⟩

/-- C3 counterexample: a job whose first run exits with an
`EADDRINUSE` stderr triggers the retry, and the retry run carries no
timeout timer and no `error` handler, so a retry child that never exits
leaves the request unresolved forever (`response = none`, workspace
never destroyed) — refuting the claim's clause that no job is ever left
running forever. -/
theorem C3_counterexample_retry_never_resolves :
    (executeRoute (fun _ => none) true none
        (ExecBehavior.mk InstallResult.ok
          ⟨"", "Error: listen EADDRINUSE :::3000", RunOutcome.exited⟩
          RetryOutcome.neverExits)).response = none ∧
      (executeRoute (fun _ => none) true none
        (ExecBehavior.mk InstallResult.ok
          ⟨"", "Error: listen EADDRINUSE :::3000", RunOutcome.exited⟩
          RetryOutcome.neverExits)).workspaceDestroyed = false := by
  constructor <;> rfl

/-- C3 amended: when the 60 s timer fires with the first subprocess
still running, that subprocess is SIGKILLed and, unless the port-retry
path hangs, the job resolves as a success carrying `timedOut : true`
and the captured output (stdout, or stderr when stdout is empty, plus
the full stderr); the job hangs exactly when the first run's stderr
shows `EADDRINUSE` and the untimed retry subprocess never exits. -/
theorem C3_amended_timeout_killed_success (parsePort : String → Option Nat)
    (pg : Bool) (rp : Option Nat) (b : ExecBehavior)
    (hi : b.install = InstallResult.ok)
    (ho : b.att1.outcome = RunOutcome.runsPastTimeout) :
    (executeRoute parsePort pg rp b).killedFirst = true ∧
      ((executeRoute parsePort pg rp b).response = none ↔
        (stderrHasAddrInUse b.att1.stderrTxt = true ∧
          b.retry = RetryOutcome.neverExits)) ∧
      (stderrHasAddrInUse b.att1.stderrTxt = false →
        (executeRoute parsePort pg rp b).response =
          some { status := 200, success := true,
                 output := if b.att1.stdoutTxt = "" then b.att1.stderrTxt
                           else b.att1.stdoutTxt,
                 stderrField := b.att1.stderrTxt, message := "",
                 timedOut := true }) ∧
      (∀ rso rse, b.retry = RetryOutcome.exits rso rse →
        ∃ r, (executeRoute parsePort pg rp b).response = some r ∧
          r.success = true ∧ r.timedOut = true ∧ r.status = 200) := by
  obtain ⟨inst, att1, retry⟩ := b
  obtain ⟨so1, se1, outc⟩ := att1
  cases hi
  cases ho
  by_cases hadr : stderrHasAddrInUse se1 = true
  · cases retry with
    | neverExits =>
        refine ⟨by simp [executeRoute, hadr], ?_, ?_, ?_⟩
        · simp [executeRoute, hadr]
        · intro hf
          rw [hadr] at hf
          cases hf
        · intro rso rse hr
          cases hr
    | exits rso rse =>
        refine ⟨by simp [executeRoute, hadr], ?_, ?_, ?_⟩
        · simp [executeRoute, hadr]
        · intro hf
          rw [hadr] at hf
          cases hf
        · intro rso2 rse2 hr
          cases hr
          exact ⟨{ status := 200, success := true,
                   output := if so1 ++ rso = "" then se1 ++ rse
                             else so1 ++ rso,
                   stderrField := se1 ++ rse, message := "",
                   timedOut := true },
            by simp [executeRoute, hadr], rfl, rfl, rfl⟩
  · have hadr2 : stderrHasAddrInUse se1 = false := by
      cases hh : stderrHasAddrInUse se1
      · rfl
      · exact absurd hh hadr
    refine ⟨by simp [executeRoute, hadr2], ?_, ?_, ?_⟩
    · simp [executeRoute, hadr2]
    · intro
      simp [executeRoute, hadr2]
    · intro rso rse hr
      exact ⟨{ status := 200, success := true,
               output := if so1 = "" then se1 else so1,
               stderrField := se1, message := "", timedOut := true },
        by simp [executeRoute, hadr2], rfl, rfl, rfl⟩

theorem C3_amended_timeout_killed_success_witness :
    (ExecBehavior.mk InstallResult.ok
          ⟨"hello", "", RunOutcome.runsPastTimeout⟩
          RetryOutcome.neverExits).install = InstallResult.ok ∧
      (executeRoute (fun _ => none) false none
          (ExecBehavior.mk InstallResult.ok
            ⟨"hello", "", RunOutcome.runsPastTimeout⟩
            RetryOutcome.neverExits)).killedFirst = true ∧
      (executeRoute (fun _ => none) false none
          (ExecBehavior.mk InstallResult.ok
            ⟨"hello", "", RunOutcome.runsPastTimeout⟩
            RetryOutcome.neverExits)).response =
        some { status := 200, success := true, output := "hello",
               stderrField := "", message := "", timedOut := true } := by
  have h := C3_amended_timeout_killed_success (fun _ => none) false none
    (ExecBehavior.mk InstallResult.ok
      ⟨"hello", "", RunOutcome.runsPastTimeout⟩ RetryOutcome.neverExits)
    rfl rfl
  exact ⟨rfl, h.1, h.2.2.1 (by decide)⟩

/-- C6: when the first run's stderr shows `EADDRINUSE` (and the run
itself did not fail at spawn), exactly one retry is spawned and it asks
for an unconstrained port (`PORT=0` — the spawned env ports are exactly
`[desired, 0]`); when a project id is present and the retry's stdout
yields a port, that port overwrites the persisted `runPort`; and a retry
that exits (e.g. with a second `EADDRINUSE`) still produces a terminal
response — no third spawn ever happens. -/
theorem C6_single_port_retry (parsePort : String → Option Nat)
    (pg : Bool) (rp : Option Nat) (b : ExecBehavior)
    (hi : b.install = InstallResult.ok)
    (ho : b.att1.outcome = RunOutcome.exited ∨
      b.att1.outcome = RunOutcome.runsPastTimeout)
    (hadr : stderrHasAddrInUse b.att1.stderrTxt = true) :
    (executeRoute parsePort pg rp b).spawnPorts =
        [if pg then rp.getD 0 else 0, 0] ∧
      (∀ rso rse p, b.retry = RetryOutcome.exits rso rse → pg = true →
        parsePort rso = some p →
        (executeRoute parsePort pg rp b).finalRunPort = some p) ∧
      (∀ rso rse, b.retry = RetryOutcome.exits rso rse →
        ((executeRoute parsePort pg rp b).response).isSome = true) := by
  obtain ⟨inst, att1, retry⟩ := b
  obtain ⟨so1, se1, outc⟩ := att1
  cases hi
  have hdp : (if pg = true then
      match rp with
      | some p => p
      | none => 0
    else 0) = (if pg then rp.getD 0 else 0) := by
    cases pg <;> cases rp <;> rfl
  rcases ho with ho | ho <;> cases ho <;>
    cases retry with
    | neverExits =>
        refine ⟨by simp [executeRoute, hadr, hdp], ?_, ?_⟩
        · intro rso rse p hr
          cases hr
        · intro rso rse hr
          cases hr
    | exits rso rse =>
        refine ⟨by simp [executeRoute, hadr, hdp], ?_, ?_⟩
        · intro rso2 rse2 p hr hpg hp
          cases hr
          cases hpg
          simp [executeRoute, hadr, hp]
        · intro rso2 rse2 hr
          cases hr
          simp [executeRoute, hadr]

theorem C6_single_port_retry_witness :
    (executeRoute (fun s => if s = "port 4001" then some 4001 else none)
        true (some 9)
        (ExecBehavior.mk InstallResult.ok
          ⟨"", "Error: listen EADDRINUSE :::9", RunOutcome.exited⟩
          (RetryOutcome.exits "port 4001"
            "Error: listen EADDRINUSE :::4001"))).spawnPorts = [9, 0] ∧
      (executeRoute (fun s => if s = "port 4001" then some 4001 else none)
        true (some 9)
        (ExecBehavior.mk InstallResult.ok
          ⟨"", "Error: listen EADDRINUSE :::9", RunOutcome.exited⟩
          (RetryOutcome.exits "port 4001"
            "Error: listen EADDRINUSE :::4001"))).finalRunPort = some 4001 ∧
      ((executeRoute (fun s => if s = "port 4001" then some 4001 else none)
        true (some 9)
        (ExecBehavior.mk InstallResult.ok
          ⟨"", "Error: listen EADDRINUSE :::9", RunOutcome.exited⟩
          (RetryOutcome.exits "port 4001"
            "Error: listen EADDRINUSE :::4001"))).response).isSome = true := by
  have h := C6_single_port_retry
    (fun s => if s = "port 4001" then some 4001 else none) true (some 9)
    (ExecBehavior.mk InstallResult.ok
      ⟨"", "Error: listen EADDRINUSE :::9", RunOutcome.exited⟩
      (RetryOutcome.exits "port 4001" "Error: listen EADDRINUSE :::4001"))
    rfl (Or.inl rfl) (by decide)
  exact ⟨h.1, h.2.1 "port 4001" "Error: listen EADDRINUSE :::4001" 4001
      rfl rfl (by decide),
    h.2.2 "port 4001" "Error: listen EADDRINUSE :::4001" rfl⟩

theorem roomOf_cons (pid : String) (l : List Collab) (rest : RoomMap)
    (q : String) :
    roomOf ((pid, l) :: rest) q = if pid = q then l else roomOf rest q := by
  by_cases h : pid = q
  · simp [roomOf, List.find?, h]
  · simp [roomOf, List.find?, h]

theorem roomOf_setRoom_self (st : RoomMap) (pid : String)
    (l : List Collab) : roomOf (setRoom st pid l) pid = l := by
  induction st with
  | nil => simp [setRoom, roomOf, List.find?]
  | cons e rest ih =>
      obtain ⟨k, v⟩ := e
      simp only [setRoom]
      split
      · next h => rw [roomOf_cons, if_pos rfl]
      · next h =>
          rw [roomOf_cons, if_neg (by simpa using h)]
          exact ih

theorem roomOf_setRoom_other (st : RoomMap) (pid q : String)
    (l : List Collab) (hq : q ≠ pid) :
    roomOf (setRoom st pid l) q = roomOf st q := by
  have hpq : ¬ (pid = q) := fun h => hq h.symm
  induction st with
  | nil =>
      show roomOf [(pid, l)] q = roomOf [] q
      rw [roomOf_cons, if_neg hpq]
  | cons e rest ih =>
      obtain ⟨k, v⟩ := e
      simp only [setRoom]
      split
      · next h =>
          rw [roomOf_cons, roomOf_cons, if_neg hpq]
          have hk : k = pid := by simpa using h
          rw [if_neg (by rw [hk]; exact hpq)]
      · next h =>
          rw [roomOf_cons, roomOf_cons]
          by_cases hk : k = q
          · rw [if_pos hk, if_pos hk]
          · rw [if_neg hk, if_neg hk]
            exact ih

theorem updateFirst_map_userId (d : Collab) (l l2 : List Collab)
    (h : updateFirst d l = some l2) :
    l2.map Collab.userId = l.map Collab.userId := by
  induction l generalizing l2 with
  | nil => simp [updateFirst] at h
  | cons c cs ih =>
      by_cases hc : c.userId = d.userId
      · simp only [updateFirst, if_pos hc] at h
        cases h
        simp [hc]
      · simp only [updateFirst, if_neg hc] at h
        rcases hrec : updateFirst d cs with _ | l3
        · rw [hrec] at h
          cases h
        · rw [hrec] at h
          simp at h
          cases h
          simp [ih l3 hrec]

theorem updateFirst_none (d : Collab) (l : List Collab)
    (h : updateFirst d l = none) :
    ∀ c ∈ l, c.userId ≠ d.userId := by
  induction l with
  | nil => intro c hc; cases hc
  | cons a cs ih =>
      by_cases ha : a.userId = d.userId
      · simp [updateFirst, ha] at h
      · simp only [updateFirst, if_neg ha] at h
        intro c hc
        rcases List.mem_cons.mp hc with hc | hc
        · subst hc; exact ha
        · rcases hrec : updateFirst d cs with _ | l3
          · exact ih hrec c hc
          · rw [hrec] at h
            simp at h

theorem roomOf_disconnectAll (st : RoomMap) (c : String) (q : String) :
    roomOf (disconnectAll st c).1 q =
      (roomOf st q).filter (fun u => ¬ u.socketId = c) := by
  induction st with
  | nil => simp [disconnectAll, roomOf, List.find?]
  | cons e rest ih =>
      obtain ⟨pid, users⟩ := e
      simp only [disconnectAll]
      split
      · next hlen =>
          rw [roomOf_cons, roomOf_cons]
          by_cases hq : pid = q
          · rw [if_pos hq, if_pos hq]
          · rw [if_neg hq, if_neg hq]
            exact ih
      · next hlen =>
          have hlee : (users.filter (fun u => ¬ u.socketId = c)).length =
              users.length := by
            by_contra hcon
            exact hlen hcon
          have hfe : users.filter (fun u => ¬ u.socketId = c) = users :=
            (List.filter_sublist users).eq_of_length hlee
          rw [roomOf_cons, roomOf_cons]
          by_cases hq : pid = q
          · rw [if_pos hq, if_pos hq, hfe]
          · rw [if_neg hq, if_neg hq]
            exact ih

/-- Invariant: in every room the collaborator entries carry pairwise
distinct `userId`s. -/
def UsersNodup (st : RoomMap) : Prop :=
  ∀ pid, ((roomOf st pid).map Collab.userId).Nodup

theorem pstep_usersNodup (st : RoomMap) (e : PEv) (h : UsersNodup st) :
    UsersNodup (pstep st e) := by
  cases e with
  | join pid d =>
      intro q
      show ((roomOf (joinRoom st pid d).1 q).map Collab.userId).Nodup
      simp only [joinRoom]
      split
      · next l2 hu =>
          by_cases hq : q = pid
          · subst hq
            rw [roomOf_setRoom_self]
            rw [updateFirst_map_userId d _ _ hu]
            exact h q
          · rw [roomOf_setRoom_other st pid q _ hq]
            exact h q
      · next hu =>
          by_cases hq : q = pid
          · subst hq
            rw [roomOf_setRoom_self]
            have hnotin := updateFirst_none d (roomOf st q) hu
            simp only [List.map_append, List.map_cons, List.map_nil]
            rw [List.nodup_append]
            refine ⟨h q, List.nodup_singleton _, ?_⟩
            intro a ha hb
            rcases List.mem_map.mp ha with ⟨cc, hc, hcu⟩
            have hadu : a = d.userId := by simpa using hb
            exact hnotin cc hc (by rw [hcu, hadu])
          · rw [roomOf_setRoom_other st pid q _ hq]
            exact h q
  | leave pid u s =>
      intro q
      show ((roomOf (leaveRoom st pid u s).1 q).map Collab.userId).Nodup
      simp only [leaveRoom]
      split
      · next hfound =>
          split
          · next hone =>
              by_cases hq : q = pid
              · subst hq
                rw [roomOf_setRoom_self]
                exact ((h q).sublist
                  (List.Sublist.map _ (List.filter_sublist _)))
              · rw [roomOf_setRoom_other st pid q _ hq]
                exact h q
          · next hone =>
              by_cases hq : q = pid
              · subst hq
                rw [roomOf_setRoom_self]
                exact ((h q).sublist
                  (List.Sublist.map _ (List.filter_sublist _)))
              · rw [roomOf_setRoom_other st pid q _ hq]
                exact h q
      · next hfound =>
          exact h q
  | disc s =>
      intro q
      show ((roomOf (disconnectAll st s).1 q).map Collab.userId).Nodup
      rw [roomOf_disconnectAll]
      exact ((h q).sublist (List.Sublist.map _ (List.filter_sublist _)))

theorem prun_usersNodup (tr : List PEv) : UsersNodup (prun tr) := by
  have : ∀ st, UsersNodup st → UsersNodup (tr.foldl pstep st) := by
    induction tr with
    | nil => intro st h; exact h
    | cons e tr ih =>
        intro st h
        exact ih (pstep st e) (pstep_usersNodup st e h)
  refine this [] ?_
  intro pid
  simp [roomOf, List.find?]

/-- C1 counterexample: the claim fails on the code. After
`join(p, u, c1)` followed by `join(p, u, c2)` (same identity, two
distinct connections, neither of which has left or disconnected), the
room's snapshot holds a single entry — not one entry per connection —
so the snapshot's connection ids are not a permutation of the live
connections `[c1, c2]`; and after connection `c2` then disconnects, the
snapshot is empty although `c1` is still live (a joined, never-left,
never-disconnected connection missing from the list). -/
theorem C1_counterexample_entry_per_identity :
    ¬ ((roomOf (prun [PEv.join "p" ⟨"u", "U", "u@x", "c1", 0, "online", 0⟩,
          PEv.join "p" ⟨"u", "U", "u@x", "c2", 1, "online", 0⟩]) "p").map
            Collab.socketId).Perm
        (liveConnections [PEv.join "p" ⟨"u", "U", "u@x", "c1", 0, "online", 0⟩,
          PEv.join "p" ⟨"u", "U", "u@x", "c2", 1, "online", 0⟩] "p") ∧
      liveConnections [PEv.join "p" ⟨"u", "U", "u@x", "c1", 0, "online", 0⟩,
          PEv.join "p" ⟨"u", "U", "u@x", "c2", 1, "online", 0⟩] "p" =
        ["c1", "c2"] ∧
      roomOf (prun [PEv.join "p" ⟨"u", "U", "u@x", "c1", 0, "online", 0⟩,
          PEv.join "p" ⟨"u", "U", "u@x", "c2", 1, "online", 0⟩,
          PEv.disc "c2"]) "p" = [] ∧
      liveConnections [PEv.join "p" ⟨"u", "U", "u@x", "c1", 0, "online", 0⟩,
          PEv.join "p" ⟨"u", "U", "u@x", "c2", 1, "online", 0⟩,
          PEv.disc "c2"] "p" = ["c1"] := by
  refine ⟨by decide, by decide, by decide, by decide⟩

/-- C1 amended: the room snapshot keys entries by identity, not by
connection: for every event sequence, every room's entries carry
pairwise distinct `userId`s (a join by an identity already present
replaces that identity's single entry in place), and immediately after
a disconnect no room retains any entry bearing the disconnected
connection's socket id. -/
theorem C1_amended_unique_per_identity (tr : List PEv) :
    (∀ pid, ((roomOf (prun tr) pid).map Collab.userId).Nodup) ∧
      (∀ c pid, ∀ e ∈ roomOf (prun (tr ++ [PEv.disc c])) pid,
        e.socketId ≠ c) := by
  refine ⟨prun_usersNodup tr, ?_⟩
  intro c pid e he
  have : prun (tr ++ [PEv.disc c]) = pstep (prun tr) (PEv.disc c) := by
    simp [prun, List.foldl_append]
  rw [this] at he
  show ¬ e.socketId = c
  have := roomOf_disconnectAll (prun tr) c pid
  rw [show pstep (prun tr) (PEv.disc c) = (disconnectAll (prun tr) c).1
      from rfl, this] at he
  have := List.of_mem_filter he
  simpa using this

theorem C1_amended_unique_per_identity_witness :
    ((roomOf (prun [PEv.join "p" ⟨"u", "U", "u@x", "c1", 0, "online", 0⟩,
          PEv.join "q" ⟨"v", "V", "v@x", "c2", 1, "online", 0⟩]) "p").map
        Collab.userId).Nodup ∧
      ∀ e ∈ roomOf (prun ([PEv.join "p" ⟨"u", "U", "u@x", "c1", 0, "online", 0⟩]
          ++ [PEv.disc "c1"])) "p", e.socketId ≠ "c1" :=
  ⟨(C1_amended_unique_per_identity
      [PEv.join "p" ⟨"u", "U", "u@x", "c1", 0, "online", 0⟩,
        PEv.join "q" ⟨"v", "V", "v@x", "c2", 1, "online", 0⟩]).1 "p",
    fun e he => (C1_amended_unique_per_identity
      [PEv.join "p" ⟨"u", "U", "u@x", "c1", 0, "online", 0⟩]).2 "c1" "p" e he⟩

/-- Number of `collaborator-update` broadcasts in an emit list. -/
def countUpdates (es : List Emit) : Nat :=
  (es.filter (fun e =>
    match e with
    | Emit.collaboratorUpdate _ _ => true
    | _ => false)).length

/-- C8 counterexample: a re-join by an identity already present with
byte-for-byte identical entry data recomputes a snapshot identical to
the last broadcast one — yet the handler still publishes one
`collaborator-update` (the code performs no identity diffing on the
socket path), where the claim requires the broadcast to be suppressed. -/
theorem C8_counterexample_identical_snapshot_rebroadcast :
    pemits ([] : RoomMap) (PEv.join "p" ⟨"u", "U", "u@x", "c1", 0, "online", 0⟩) =
        [Emit.collaboratorJoined "p" "u",
          Emit.collaboratorUpdate "p" [⟨"u", "U", "u@x", "c1", 0, "online", 0⟩]] ∧
      roomOf (prun [PEv.join "p" ⟨"u", "U", "u@x", "c1", 0, "online", 0⟩]) "p" =
        [⟨"u", "U", "u@x", "c1", 0, "online", 0⟩] ∧
      pemits (prun [PEv.join "p" ⟨"u", "U", "u@x", "c1", 0, "online", 0⟩])
          (PEv.join "p" ⟨"u", "U", "u@x", "c1", 0, "online", 0⟩) =
        [Emit.collaboratorUpdate "p" [⟨"u", "U", "u@x", "c1", 0, "online", 0⟩]] := by
  refine ⟨by decide, by decide, by decide⟩

theorem filter_userId_len_le_one (l : List Collab) (u : String)
    (h : (l.map Collab.userId).Nodup) :
    (l.filter (fun x => x.userId = u)).length ≤ 1 := by
  induction l with
  | nil => simp
  | cons a cs ih =>
      rw [List.map_cons, List.nodup_cons] at h
      by_cases ha : a.userId = u
      · have hnil : cs.filter (fun x => x.userId = u) = [] := by
          rw [List.filter_eq_nil_iff]
          intro x hx
          simp only [decide_eq_true_eq]
          intro hxu
          exact h.1 (List.mem_map.mpr ⟨x, hx, by rw [hxu, ha]⟩)
        simp [List.filter_cons, ha, hnil]
      · simp only [List.filter_cons, ha, decide_eq_true_eq, if_neg ha]
        simpa using ih h.2

/-- C8 amended: on the socket path every successful join publishes
exactly one `collaborator-update` broadcast unconditionally (there is
no byte-identical suppression there — see the counterexample); a leave
publishes exactly one when the identity has an entry in the room and
none otherwise; byte-for-byte suppression exists only in the SSE
stream's `sendCollaboratorUpdate`, which skips the emit exactly when
the recomputed snapshot equals the last sent one. -/
theorem C8_amended_broadcast_per_join_leave :
    (∀ st pid d, countUpdates (joinRoom st pid d).2 = 1) ∧
      (∀ tr pid u s,
        countUpdates (leaveRoom (prun tr) pid u s).2 =
          if ((roomOf (prun tr) pid).findIdx?
              (fun x => x.userId = u)).isSome then 1 else 0) ∧
      (∀ last cur, (sseTick last cur).1 = none ↔ cur = last) := by
  refine ⟨?_, ?_, ?_⟩
  · intro st pid d
    simp only [joinRoom]
    split
    · rfl
    · rfl
  · intro tr pid u s
    simp only [leaveRoom]
    split
    · next hfound =>
        have hone := filter_userId_len_le_one (roomOf (prun tr) pid) u
          (prun_usersNodup tr pid)
        rw [if_pos hone]
        rfl
    · next hfound =>
        rfl
  · intro last cur
    by_cases h : cur = last
    · simp [sseTick, h]
    · simp [sseTick, h]

/-- C9 counterexample: with 101 stored messages of strictly increasing
`createdAt`, the history query (ascending sort, `limit(100)`) returns
the oldest 100 and omits the newest message — so the result is not the
most-recent-N list the claim describes. -/
theorem C9_counterexample_returns_oldest :
    (ChatMsg.mk 100 "" 100) ∈
        ((List.range 101).map (fun i => ChatMsg.mk i "" i)) ∧
      (ChatMsg.mk 100 "" 100) ∉
        chatList ((List.range 101).map (fun i => ChatMsg.mk i "" i)) ∧
      (∀ m ∈ ((List.range 101).map (fun i => ChatMsg.mk i "" i)),
        m.createdAt ≤ 100) ∧
      (ChatMsg.mk 0 "" 0) ∈
        chatList ((List.range 101).map (fun i => ChatMsg.mk i "" i)) := by
  refine ⟨by decide, by decide, by decide, by decide⟩

/-- C9 amended: `list(roomId)` returns a bounded list — at most 100
messages, in ascending `createdAt` order — containing the *earliest*
messages of the room: on an already chronologically ordered store it is
exactly the first 100 stored messages (the newest are the ones cut
off). -/
theorem C9_amended_bounded_oldest_ascending (msgs : List ChatMsg) :
    (chatList msgs).length = min 100 msgs.length ∧
      List.Sorted (fun a b => a.createdAt ≤ b.createdAt) (chatList msgs) ∧
      (List.Sorted (fun a b => a.createdAt ≤ b.createdAt) msgs →
        chatList msgs = msgs.take 100) := by
  haveI htot : IsTotal ChatMsg (fun a b => a.createdAt ≤ b.createdAt) :=
    ⟨fun a b => Nat.le_total _ _⟩
  haveI htr : IsTrans ChatMsg (fun a b => a.createdAt ≤ b.createdAt) :=
    ⟨fun _ _ _ hab hbc => Nat.le_trans hab hbc⟩
  refine ⟨?_, ?_, ?_⟩
  · rw [chatList, List.length_take,
      (List.perm_insertionSort (fun a b => a.createdAt ≤ b.createdAt)
        msgs).length_eq]
  · have hs := List.sorted_insertionSort
      (fun a b : ChatMsg => a.createdAt ≤ b.createdAt) msgs
    exact List.Pairwise.sublist (List.take_sublist _ _) hs
  · intro hs
    rw [chatList, hs.insertionSort_eq]

theorem C9_amended_bounded_oldest_ascending_witness :
    List.Sorted (fun a b : ChatMsg => a.createdAt ≤ b.createdAt)
        [ChatMsg.mk 1 "" 1, ChatMsg.mk 2 "" 2] ∧
      chatList [ChatMsg.mk 1 "" 1, ChatMsg.mk 2 "" 2] =
        [ChatMsg.mk 1 "" 1, ChatMsg.mk 2 "" 2].take 100 :=
  ⟨by decide,
    (C9_amended_bounded_oldest_ascending
        [ChatMsg.mk 1 "" 1, ChatMsg.mk 2 "" 2]).2.2 (by decide)⟩

theorem chatHandler_store_mem (store : List StoredMsg) (freshId : String)
    (saveOk : Bool) (suid : Option String) (d : ChatData) :
    ∀ m ∈ (chatHandler store freshId saveOk suid d).store,
      m ∈ store ∨ m.mid = freshId := by
  intro m hm
  by_cases hor : d.projectId = "" ∨ d.text = ""
  · rw [chatHandler.eq_def, if_pos hor] at hm
    exact Or.inl hm
  · rw [chatHandler.eq_def, if_neg hor] at hm
    by_cases hsn : d.senderId = none
    · rw [if_pos hsn] at hm
      exact Or.inl hm
    · rw [if_neg hsn] at hm
      rcases suid with _ | u
      · rcases hsid : d.senderId with _ | sid
        · exact absurd hsid hsn
        · rw [hsid] at hm
          simp only at hm
          split at hm
          · exact Or.inl hm
          · split at hm
            · rcases List.mem_append.mp hm with hm | hm
              · exact Or.inl hm
              · simp at hm
                exact Or.inr (by rw [hm])
            · exact Or.inl hm
      · simp only at hm
        split at hm
        · exact Or.inl hm
        · split at hm
          · rcases List.mem_append.mp hm with hm | hm
            · exact Or.inl hm
            · simp at hm
              exact Or.inr (by rw [hm])
          · exact Or.inl hm

/-- C10: on the realtime chat path, a message whose client-supplied id
starts with `temp-` is broadcast to the room but never written to the
message store; every other valid message is saved first and broadcast
with its freshly minted database id, and on a save failure nothing is
broadcast; consequently, as long as database ids never start with
`temp-`, no history query over the store ever returns a temp message. -/
theorem C10_temp_broadcast_not_saved :
    (∀ store freshId saveOk suid d tid,
        ¬ d.projectId = "" → ¬ d.text = "" → d.senderId ≠ none →
        d.mid = some tid → startsWithTemp tid = true →
        (chatHandler store freshId saveOk suid d).store = store ∧
        ((chatHandler store freshId saveOk suid d).broadcasts.map
          StoredMsg.mid) = [tid]) ∧
      (∀ store freshId suid d,
        ¬ d.projectId = "" → ¬ d.text = "" → d.senderId ≠ none →
        (match d.mid with
          | some s => startsWithTemp s
          | none => false) = false →
        (chatHandler store freshId true suid d).store =
          store ++ (chatHandler store freshId true suid d).broadcasts ∧
        ((chatHandler store freshId true suid d).broadcasts.map
          StoredMsg.mid) = [freshId]) ∧
      (∀ store freshId suid d,
        (match d.mid with
          | some s => startsWithTemp s
          | none => false) = false →
        (chatHandler store freshId false suid d).store = store ∧
        (chatHandler store freshId false suid d).broadcasts = []) ∧
      (∀ evs store0,
        (∀ m ∈ store0, startsWithTemp m.mid = false) →
        (∀ ev ∈ evs, startsWithTemp ev.freshId = false) →
        ∀ m ∈ chatRun evs store0, startsWithTemp m.mid = false) := by
  have hne : ∀ (d : ChatData), ¬ d.projectId = "" → ¬ d.text = "" →
      ¬ (d.projectId = "" ∨ d.text = "") := by
    intro d h1 h2 hor
    exact hor.elim h1 h2
  refine ⟨?_, ?_, ?_, ?_⟩
  · intro store freshId saveOk suid d tid h1 h2 h3 h4 h5
    rw [chatHandler.eq_def, if_neg (hne d h1 h2), if_neg h3]
    rcases suid with _ | u
    · rcases hsid : d.senderId with _ | sid
      · exact absurd hsid h3
      · simp only [hsid, h4, h5, if_pos]
        exact ⟨by simp, by simp [h4]⟩
    · simp only [h4, h5, if_pos]
      exact ⟨by simp, by simp [h4]⟩
  · intro store freshId suid d h1 h2 h3 hnt
    rw [chatHandler.eq_def, if_neg (hne d h1 h2), if_neg h3]
    rcases suid with _ | u
    · rcases hsid : d.senderId with _ | sid
      · exact absurd hsid h3
      · simp only [hsid, hnt, if_false, if_true, Bool.false_eq_true]
        exact ⟨by simp, by simp⟩
    · simp only [hnt, if_false, if_true, Bool.false_eq_true]
      exact ⟨by simp, by simp⟩
  · intro store freshId suid d hnt
    by_cases hor : d.projectId = "" ∨ d.text = ""
    · rw [chatHandler.eq_def, if_pos hor]
      exact ⟨rfl, rfl⟩
    · rw [chatHandler.eq_def, if_neg hor]
      by_cases hsn : d.senderId = none
      · rw [if_pos hsn]
        exact ⟨rfl, rfl⟩
      · rw [if_neg hsn]
        rcases suid with _ | u
        · rcases hsid : d.senderId with _ | sid
          · exact absurd hsid hsn
          · simp only [hsid, hnt, if_false, Bool.false_eq_true]
            exact ⟨by simp, by simp⟩
        · simp only [hnt, if_false, Bool.false_eq_true]
          exact ⟨by simp, by simp⟩
  · intro evs
    induction evs with
    | nil =>
        intro store0 hs _ m hm
        exact hs m hm
    | cons ev evs ih =>
        intro store0 hs hf m hm
        have hstep : ∀ m2 ∈ (chatHandler store0 ev.freshId ev.saveOk
            ev.socketUserId ev.payload).store,
            startsWithTemp m2.mid = false := by
          intro m2 hm2
          rcases chatHandler_store_mem store0 ev.freshId ev.saveOk
              ev.socketUserId ev.payload m2 hm2 with hin | hfresh
          · exact hs m2 hin
          · rw [hfresh]
            exact hf ev (List.mem_cons_self _ _)
        exact ih (chatHandler store0 ev.freshId ev.saveOk
            ev.socketUserId ev.payload).store hstep
          (fun e he => hf e (List.mem_cons_of_mem _ he)) m hm

theorem C10_temp_broadcast_not_saved_witness :
    ((chatHandler [] "oid1" true (some "u1")
        ⟨some "temp-1", "p", "hi", some "u1"⟩).store = [] ∧
      ((chatHandler [] "oid1" true (some "u1")
        ⟨some "temp-1", "p", "hi", some "u1"⟩).broadcasts.map
          StoredMsg.mid) = ["temp-1"]) ∧
      ((chatHandler [] "oid1" true (some "u1")
          ⟨some "m1", "p", "hi", some "u1"⟩).store =
        [] ++ (chatHandler [] "oid1" true (some "u1")
          ⟨some "m1", "p", "hi", some "u1"⟩).broadcasts) ∧
      ((chatHandler [] "oid1" false (some "u1")
          ⟨some "m1", "p", "hi", some "u1"⟩).broadcasts = []) := by
  have h := C10_temp_broadcast_not_saved
  refine ⟨h.1 [] "oid1" true (some "u1")
      ⟨some "temp-1", "p", "hi", some "u1"⟩ "temp-1"
      (by decide) (by decide) (by decide) rfl (by decide),
    (h.2.1 [] "oid1" (some "u1") ⟨some "m1", "p", "hi", some "u1"⟩
      (by decide) (by decide) (by decide) (by decide)).1,
    (h.2.2.1 [] "oid1" (some "u1") ⟨some "m1", "p", "hi", some "u1"⟩
      (by decide)).2⟩

end DevDeck
